import Mathlib

set_option autoImplicit false

namespace IngredientCheck

/-!
Shallow embedding of the EU-additive enrichment subsystem of
`core/eu_additives.py` (repository `Svetsun/ingredient-check`).

Python strings are modelled as Lean `String` (a structure holding a
`List Char`), Python dicts over string keys as association lists in
insertion order, and JSON values by the inductive `Json` below.
External collaborators (the `requests` HTTP library, the `csv`/`json`
stdlib parsers and the LLM translation call) are passed in as oracle
arguments, exactly at the boundaries where the source calls out of the
repository.
-/

/-! ## Character / string primitives (Python `str` semantics, ASCII range) -/

/-- Python regex `\s` class, ASCII part: space, tab, newline, carriage
return, vertical tab, form feed. -/
def pyIsSpace (c : Char) : Bool :=
  c = ' ' || c = '\t' || c = '\n' || c = '\r' || c = '\x0b' || c = '\x0c'

/-- ASCII lower→upper case table backing `str.upper` on the data this
subsystem handles. -/
def lowerUpperPairs : List (Char × Char) :=
  [('a','A'), ('b','B'), ('c','C'), ('d','D'), ('e','E'), ('f','F'), ('g','G'),
   ('h','H'), ('i','I'), ('j','J'), ('k','K'), ('l','L'), ('m','M'), ('n','N'),
   ('o','O'), ('p','P'), ('q','Q'), ('r','R'), ('s','S'), ('t','T'), ('u','U'),
   ('v','V'), ('w','W'), ('x','X'), ('y','Y'), ('z','Z')]

/-- `str.upper` on one character (ASCII). -/
def pyUpperChar (c : Char) : Char :=
  (((lowerUpperPairs.find? (fun p => p.1 == c)).map Prod.snd).getD c)

/-- `str.lower` on one character (ASCII). -/
def pyLowerChar (c : Char) : Char :=
  (((lowerUpperPairs.find? (fun p => p.2 == c)).map Prod.fst).getD c)

/-- `str.upper` on a character list. -/
def pyUpper (l : List Char) : List Char := l.map pyUpperChar

/-- `str.lower` on a character list. -/
def pyLower (l : List Char) : List Char := l.map pyLowerChar

/-- `str.strip()`: drop whitespace from both ends. -/
def pyTrim (l : List Char) : List Char :=
  ((l.dropWhile pyIsSpace).reverse.dropWhile pyIsSpace).reverse

/-- Characters kept by `re.sub(r"[\s-]+", "", s)`: everything that is
neither whitespace nor a hyphen. -/
def keepCh (c : Char) : Bool := !(pyIsSpace c || c == '-')

/-- `str.strip()` on `String`. -/
def pyTrimStr (s : String) : String := ⟨pyTrim s.data⟩

/-- `str.lower()` on `String`. -/
def pyLowerStr (s : String) : String := ⟨pyLower s.data⟩

/-- `str.upper()` on `String`. -/
def pyUpperStr (s : String) : String := ⟨pyUpper s.data⟩

/-! ## `normalize_e_code_storage` (eu_additives.py lines 57–67) -/

/-- `s.startswith("E")` on a character list. -/
def startsWithE (t : List Char) : Bool := t.head? == some 'E'

/-- Core of `normalize_e_code_storage` on character lists:
`if not s: return ""`, then strip + upper, then remove `[\s-]+`, then
ensure a leading `"E"`. -/
def normL (l : List Char) : List Char :=
  if l = [] then []
  else
    let t := (pyUpper (pyTrim l)).filter keepCh
    if startsWithE t then t else 'E' :: t

/-- `normalize_e_code_storage(s)`: storage-normalized canonical form
(`E250`, `E211A` — no spaces/hyphens, upper-case, `E`-prefixed). -/
def normalize_e_code_storage (s : String) : String := ⟨normL s.data⟩

/-! ## `normalize_e_code_query_variants` (eu_additives.py lines 69–81) -/

/-- `[A-Za-z]` (the pattern's `[A-Z]?` runs under `(?i)`). -/
def isAsciiLetter (c : Char) : Bool :=
  ('A' ≤ c && c ≤ 'Z') || ('a' ≤ c && c ≤ 'z')

/-- Consume the separator language `\s*[- ]?\s*`: whitespace, at most one
hyphen, more whitespace.  Deterministic because the following `\d{3}`
can match neither whitespace nor a hyphen. -/
def sepSkip (l : List Char) : List Char :=
  match l.dropWhile pyIsSpace with
  | a :: r2 => if a = '-' then r2.dropWhile pyIsSpace else a :: r2
  | [] => []

/-- `\d{3}[A-Z]?` under `(?i)`, greedy on the optional letter; returns
the captured group. -/
def digitsCore : List Char → Option (List Char)
  | d1 :: d2 :: d3 :: tail =>
    if d1.isDigit && d2.isDigit && d3.isDigit then
      match tail with
      | t :: _ => if isAsciiLetter t then some [d1, d2, d3, t] else some [d1, d2, d3]
      | [] => some [d1, d2, d3]
    else none
  | _ => none

/-- One-position match attempt for `(?i)E\s*[- ]?\s*(\d{3}[A-Z]?)`. -/
def eCoreAt : List Char → Option (List Char)
  | [] => none
  | c :: rest =>
    if c = 'E' ∨ c = 'e' then digitsCore (sepSkip rest) else none

/-- `re.search` for the variant pattern: leftmost position whose match
attempt succeeds. -/
def findECore : List Char → Option (List Char)
  | [] => none
  | c :: rest =>
    match eCoreAt (c :: rest) with
    | some g => some g
    | none => findECore rest

/-- `re.sub(r"\D", "", s)`: keep only the digits. -/
def onlyDigits (l : List Char) : List Char := l.filter Char.isDigit

/-- `normalize_e_code_query_variants(s)`: the three upstream spellings
`"E NNN"`, `"ENNN"`, `"E-NNN"` of the extracted core; when the pattern
finds no core, the digit-stripped input is used as the core, and only a
fully digit-free input falls back to the single-element list holding the
stripped upper-cased input. -/
def normalize_e_code_query_variants (s : String) : List String :=
  let t := pyUpper (pyTrim s.data)
  match findECore t with
  | none =>
    let core := onlyDigits t
    if core ≠ [] then
      [⟨'E' :: ' ' :: core⟩, ⟨'E' :: core⟩, ⟨'E' :: '-' :: core⟩]
    else [⟨t⟩]
  | some core =>
    [⟨'E' :: ' ' :: core⟩, ⟨'E' :: core⟩, ⟨'E' :: '-' :: core⟩]

/-! ## Timestamps and staleness (`_is_expired`, eu_additives.py lines 95–101) -/

/-- `TTL_DAYS = 180` — refresh API rows after ~6 months. -/
def TTL_DAYS : Nat := 180

/-- Proleptic Gregorian leap years (as `calendar.isleap`). -/
def isLeapYear (y : Nat) : Bool := (y % 4 == 0 && y % 100 != 0) || y % 400 == 0

def daysInMonth (y m : Nat) : Nat :=
  if m = 2 then (if isLeapYear y then 29 else 28)
  else if m = 4 ∨ m = 6 ∨ m = 9 ∨ m = 11 then 30 else 31

/-- Days from 0001-01-01 (day 0) to the civil date `y-m-d`. -/
def daysSinceEpoch (y m d : Nat) : Nat :=
  let py := y - 1
  let leapDays := py / 4 - py / 100 + py / 400
  let monthDays := (List.range (m - 1)).foldl (fun acc i => acc + daysInMonth y (i + 1)) 0
  365 * py + leapDays + monthDays + (d - 1)

def parseDigit (c : Char) : Option Nat :=
  if c.isDigit then some (c.toNat - 48) else none

def parse2 (a b : Char) : Option Nat := do
  let x ← parseDigit a
  let y ← parseDigit b
  pure (10 * x + y)

def parse4 (a b c d : Char) : Option Nat := do
  let x ← parse2 a b
  let y ← parse2 c d
  pure (100 * x + y)

/-- `YYYY-MM-DD`, with `datetime`'s range validation (year ≥ 1). -/
def parseDateL : List Char → Option (Nat × Nat × Nat)
  | [y1, y2, y3, y4, h1, m1, m2, h2, d1, d2] =>
    if h1 = '-' ∧ h2 = '-' then do
      let y ← parse4 y1 y2 y3 y4
      let m ← parse2 m1 m2
      let d ← parse2 d1 d2
      if 1 ≤ y ∧ 1 ≤ m ∧ m ≤ 12 ∧ 1 ≤ d ∧ d ≤ daysInMonth y m then
        some (y, m, d)
      else none
    else none
  | _ => none

/-- `HH:MM:SS` as seconds past midnight. -/
def parseTimeL : List Char → Option Nat
  | [h1, h2, c1, mi1, mi2, c2, s1, s2] =>
    if c1 = ':' ∧ c2 = ':' then do
      let h ← parse2 h1 h2
      let mi ← parse2 mi1 mi2
      let s ← parse2 s1 s2
      if h ≤ 23 ∧ mi ≤ 59 ∧ s ≤ 59 then some (3600 * h + 60 * mi + s) else none
    else none
  | _ => none

/-- `datetime.fromisoformat` restricted to the shapes this repository
produces and consumes: `YYYY-MM-DD`, optionally followed by one
separator character and `HH:MM:SS` (the writer `_utcnow` emits exactly
`YYYY-MM-DDTHH:MM:SS`).  Returns naive-UTC seconds since
0001-01-01T00:00:00; any other shape — timezone suffixes, fractional
seconds, malformed text — is a parse failure, which `_is_expired`
converts to "stale". -/
def parseIsoSeconds (s : String) : Option Int :=
  let l := s.data
  if l.length = 10 then
    (parseDateL l).map (fun p => ((daysSinceEpoch p.1 p.2.1 p.2.2 * 86400 : Nat) : Int))
  else if l.length = 19 then
    match parseDateL (l.take 10), parseTimeL (l.drop 11) with
    | some p, some t => some ((daysSinceEpoch p.1 p.2.1 p.2.2 * 86400 + t : Nat) : Int)
    | _, _ => none
  else none

/-- `_is_expired(ts, days=TTL_DAYS)`: a missing, empty or unparseable
timestamp is expired; otherwise expired exactly when `utcnow() - ts`
exceeds `days` days.  `nowSec` stands for `datetime.utcnow()` in the
same seconds scale as `parseIsoSeconds`. -/
def _is_expired (ts : Option String) (nowSec : Int) (days : Nat := TTL_DAYS) : Bool :=
  match ts with
  | none => true
  | some s =>
    if s = "" then true
    else
      match parseIsoSeconds s with
      | none => true
      | some t => decide (nowSec - t > (days : Int) * 86400)

/-! ## JSON values, API rows, Python dicts -/

/-- JSON values as delivered by `resp.json()` / built by `json.loads`;
objects keep field insertion order like Python dicts. -/
inductive Json where
  | null : Json
  | bool (b : Bool) : Json
  | num (n : Int) : Json
  | str (s : String) : Json
  | arr (elems : List Json) : Json
  | obj (fields : List (String × Json)) : Json

/-- An upstream API row (`Dict[str, Any]`), and also the record/item
dicts this subsystem builds: an insertion-ordered association list. -/
abbrev Row := List (String × Json)

mutual
/-- Python `str(v)` on the values this pipeline extracts from rows
(scalars in practice; containers get a simplified rendering). -/
def pyStrJ : Json → String
  | .str s => s
  | .null => "None"
  | .bool true => "True"
  | .bool false => "False"
  | .num n => toString n
  | .arr l => "[" ++ pyStrList l ++ "]"
  | .obj l => "\x7b" ++ pyStrFields l ++ "\x7d"
def pyStrList : List Json → String
  | [] => ""
  | [x] => pyStrJ x
  | x :: xs => pyStrJ x ++ ", " ++ pyStrList xs
def pyStrFields : List (String × Json) → String
  | [] => ""
  | [p] => p.1 ++ ": " ++ pyStrJ p.2
  | p :: ps => p.1 ++ ": " ++ pyStrJ p.2 ++ ", " ++ pyStrFields ps
end

/-- Python truthiness of a JSON value. -/
def pyTruthy : Json → Bool
  | .null => false
  | .bool b => b
  | .num n => n != 0
  | .str s => !s.isEmpty
  | .arr l => !l.isEmpty
  | .obj l => !l.isEmpty

/-- `d.get(k)`: first binding wins (keys are unique in practice). -/
def assocGet {α : Type} (d : List (String × α)) (k : String) : Option α :=
  (d.find? (fun p => p.1 == k)).map Prod.snd

/-- `d.get(k, dflt)`. -/
def assocGetD {α : Type} (d : List (String × α)) (k : String) (dflt : α) : α :=
  (assocGet d k).getD dflt

/-- `d[k] = v`: overwrite in place, else append (insertion order kept). -/
def assocSet {α : Type} (d : List (String × α)) (k : String) (v : α) :
    List (String × α) :=
  if d.any (fun p => p.1 == k) then
    d.map (fun p => if p.1 == k then (k, v) else p)
  else d ++ [(k, v)]

/-- `eu.get(k, "")` for the string-valued record fields. -/
def getStr (d : Row) (k : String) : String :=
  pyStrJ (assocGetD d k (Json.str ""))

/-- `v if v not in (None, "") else nothing`, already rendered by `str`:
the shared guard of `pick` and the code loop in
`_prefer_substance_match`. -/
def goodVal : Json → Option String
  | Json.null => none
  | Json.str s => if s = "" then none else some s
  | v => some (pyStrJ v)

/-- `pick(d, *keys)` (lines 314–318): first key present with a value
that is neither `None` nor `""`, rendered with `str`; else `""`. -/
def pick (d : Row) (keys : List String) : String :=
  (keys.findSome? (fun k =>
    match assocGet d k with
    | some v => goodVal v
    | none => none)).getD ""

/-! ## Row selection (`_prefer_substance_match`, lines 249–282) -/

/-- `ecode_keys` of `_prefer_substance_match`. -/
def ecodeKeys : List String :=
  ["additive_e_code", "e_code", "E_number", "e_number", "code"]

/-- The normalized E-code extracted from a row: the first `ecode_keys`
entry whose value is neither `None` nor `""`, stringified and
storage-normalized (`norm(e)` with `e = ""` when no key matches). -/
def rowECodeNorm (r : Row) : String :=
  normalize_e_code_storage (pick r ecodeKeys)

/-- `str(r.get("additive_type", "") or r.get("type", "") or "")`. -/
def rowTypeStr (r : Row) : String :=
  let v1 := assocGetD r "additive_type" (Json.str "")
  let v2 := assocGetD r "type" (Json.str "")
  pyStrJ (if pyTruthy v1 then v1 else if pyTruthy v2 then v2 else Json.str "")

/-- `_prefer_substance_match(rows, e_code_norm)`: priority selection over
the `(row, e_norm, type)` triples. -/
def _prefer_substance_match (rows : List Row) (e_code_norm : String) : Option Row :=
  let enriched := rows.map (fun r => (r, rowECodeNorm r, rowTypeStr r))
  match enriched.find? (fun x =>
      x.2.1 != "" && x.2.1 == e_code_norm && pyLowerStr x.2.2 == "substancefad") with
  | some x => some x.1
  | none =>
    match enriched.find? (fun x => x.2.1 != "" && x.2.1 == e_code_norm) with
    | some x => some x.1
    | none =>
      match enriched.find? (fun x => pyLowerStr x.2.2 == "substancefad") with
      | some x => some x.1
      | none => rows.head?

/-- `selectBestRow` as spec §4.3 words it, amended so that priorities (1)
and (2) also require the row's normalized code to be non-empty (as the
code's `if e_norm and ...` guards do). -/
def selectBestRowSpec (rows : List Row) (wanted : String) : Option Row :=
  match rows.find? (fun r =>
      rowECodeNorm r != "" && rowECodeNorm r == wanted &&
        pyLowerStr (rowTypeStr r) == "substancefad") with
  | some r => some r
  | none =>
    match rows.find? (fun r => rowECodeNorm r != "" && rowECodeNorm r == wanted) with
    | some r => some r
    | none =>
      match rows.find? (fun r => pyLowerStr (rowTypeStr r) == "substancefad") with
      | some r => some r
      | none => rows.head?

/-- `selectBestRow` priority exactly as claim C4 words it — no
non-emptiness requirement on the row's normalized code; kept only to
exhibit where it diverges from the code. -/
def selectBestRowClaim (rows : List Row) (wanted : String) : Option Row :=
  match rows.find? (fun r =>
      rowECodeNorm r == wanted && pyLowerStr (rowTypeStr r) == "substancefad") with
  | some r => some r
  | none =>
    match rows.find? (fun r => rowECodeNorm r == wanted) with
    | some r => some r
    | none =>
      match rows.find? (fun r => pyLowerStr (rowTypeStr r) == "substancefad") with
      | some r => some r
      | none => rows.head?

/-! ## Registry client (`_api_get_rows_json` / `_api_get_rows_csv`) -/

/-- Outcome of one `requests.get` call: the HTTP status plus the results
of the two library-level body decodings (`resp.json()` and
`csv.DictReader` over `resp.text`), each of which may itself raise
(`Except.error`). -/
structure Resp where
  statusCode : Int
  jsonData : Except Unit Json
  csvRows : Except Unit (List Row)

/-- Transport oracle standing for `_http_get`/`_http_get_csv`
(`requests.get` against the fixed endpoint with merged params and
optional subscription keys); `Except.error` is a raised transport
exception.  The raw-body debug-file write is a filesystem side effect
outside this model. -/
def FetchOracle : Type := List (String × String) → Except Unit Resp

/-- `_extract_rows_from_json(data)` (lines 210–227): bare list, envelope
keys `value`/`items`/`data`/`results` in fixed order, single row dict,
else nothing. -/
def _extract_rows_from_json : Json → List Row
  | Json.null => []
  | Json.arr l => l.filterMap (fun x => match x with | Json.obj f => some f | _ => none)
  | Json.obj fields =>
    match ["value", "items", "data", "results"].findSome? (fun k =>
        match assocGet fields k with
        | some (Json.arr l) => some l
        | _ => none) with
    | some l => l.filterMap (fun x => match x with | Json.obj f => some f | _ => none)
    | none => [fields]
  | _ => []

/-- `_api_get_rows_json(params)`: `[]` on raised transport errors,
non-200 status, or a raised body parse — never an exception. -/
def _api_get_rows_json (fetch : FetchOracle) (params : List (String × String)) :
    List Row :=
  match fetch params with
  | .error _ => []
  | .ok resp =>
    if resp.statusCode ≠ 200 then []
    else
      match resp.jsonData with
      | .error _ => []
      | .ok data => _extract_rows_from_json data

/-- `_api_get_rows_csv(params)`: same containment for the CSV format. -/
def _api_get_rows_csv (fetch : FetchOracle) (params : List (String × String)) :
    List Row :=
  match fetch params with
  | .error _ => []
  | .ok resp =>
    if resp.statusCode ≠ 200 then []
    else
      match resp.csvRows with
      | .error _ => []
      | .ok rows => rows

/-! ## `_query_api_and_normalize` (lines 284–334) -/

/-- `if e_code:` / `elif name:` truthiness of an optional string. -/
def truthyOptStr : Option String → Bool
  | some s => !s.isEmpty
  | none => false

/-- One variant attempt: JSON rows, falling back to CSV rows when empty. -/
def fetchRowsFor (fj fc : FetchOracle) (params : List (String × String)) : List Row :=
  let rows := _api_get_rows_json fj params
  if rows.isEmpty then _api_get_rows_csv fc params else rows

/-- The `for variant in variants:` loop — stop at the first variant whose
rows yield a chosen row. -/
def loopVariants (fj fc : FetchOracle) : List String → Option Row
  | [] => none
  | v :: rest =>
    let rows := fetchRowsFor fj fc [("additive_e_code", v)]
    let chosen :=
      if !rows.isEmpty then _prefer_substance_match rows (normalize_e_code_storage v)
      else none
    match chosen with
    | some c => some c
    | none => loopVariants fj fc rest

/-- The normalized record a successful fetch builds (the final dict
literal of `_query_api_and_normalize`); `now` stands for `_utcnow()`. -/
def buildRecord (chosen : Row) (now : String) : Row :=
  [("eu_e_code", Json.str (normalize_e_code_storage (pick chosen ecodeKeys))),
   ("eu_official_name_en", Json.str (pick chosen ["additive_name", "name", "Name"])),
   ("eu_function_en", Json.str (pick chosen ["functional_class", "function", "category"])),
   ("eu_policy_item_id", Json.str (pick chosen ["policy_item_id", "policy_id", "id"])),
   ("eu_raw", Json.obj chosen),
   ("eu_fip_url", Json.str (pick chosen ["fip_url", "url"])),
   ("updated_at", Json.str now)]

/-- `_query_api_and_normalize(e_code, name)`. -/
def _query_api_and_normalize (fj fc : FetchOracle) (now : String)
    (e_code name : Option String) : Option Row :=
  let chosen :=
    if truthyOptStr e_code then
      loopVariants fj fc (normalize_e_code_query_variants (e_code.getD ""))
    else if truthyOptStr name then
      let rows := fetchRowsFor fj fc [("additive_name", name.getD "")]
      if !rows.isEmpty then
        let subs := rows.filter (fun r =>
          pyLowerStr (pyStrJ (assocGetD r "additive_type" (Json.str ""))) == "substancefad")
        match subs with
        | s :: _ => some s
        | [] => rows.head?
      else none
    else none
  chosen.map (fun c => buildRecord c now)

/-! ## Swedish fallback tables and `_sv_fallbacks` (lines 400–451) -/

def SWEDISH_NAME_OVERRIDES : List (String × String) :=
  [("E903", "Karnaubavax"),
   ("E414", "Gummi arabicum (akaciagummi)"),
   ("E300", "Askorbinsyra"),
   ("E967", "Xylitol (björksocker)")]

def FUNCTION_SV_MAP : List (String × String) :=
  [("Antioxidant", "Antioxidationsmedel"),
   ("Glazing agent", "Ytbehandlingsmedel"),
   ("Glazing agents", "Ytbehandlingsmedel"),
   ("Colour", "Färgämne"),
   ("Color", "Färgämne"),
   ("Sweetener", "Sötningsmedel"),
   ("Stabiliser", "Stabiliseringsmedel"),
   ("Stabilizer", "Stabiliseringsmedel"),
   ("Thickener", "Förtjockningsmedel"),
   ("Emulsifier", "Emulgeringsmedel"),
   ("Preservative", "Konserveringsmedel"),
   ("Raising agent", "Jäsmedel"),
   ("Acidity regulator", "Surhetsreglerande medel"),
   ("Anti-caking agent", "Klumpförebyggande medel"),
   ("Flavour enhancer", "Smakförstärkare"),
   ("Flavouring", "Aromämne")]

def FUNCTION_OVERRIDES_BY_ECODE_SV : List (String × String) :=
  [("E903", "Ytbehandlingsmedel"),
   ("E967", "Sötningsmedel"),
   ("E300", "Antioxidationsmedel"),
   ("E414", "Stabiliserings-/Förtjockningsmedel")]

/-- Table lookup (`ecode in TABLE` / `TABLE[ecode]`). -/
def lookupTable (tbl : List (String × String)) (k : String) : Option String :=
  (tbl.find? (fun p => p.1 == k)).map Prod.snd

/-- Contiguous-substring search backing Python `needle in hay`. -/
def listHasInfix (needle : List Char) : List Char → Bool
  | [] => needle.isEmpty
  | c :: rest => needle.isPrefixOf (c :: rest) || listHasInfix needle rest

/-- Python `needle in hay` on strings. -/
def isInfixStr (needle hay : String) : Bool := listHasInfix needle.data hay.data

/-- `_is_placeholder_sv(s)` (lines 351–358). -/
def _is_placeholder_sv (s : String) : Bool :=
  let t := pyLowerStr (pyTrimStr s)
  t == "" || t == "namn" || t == "funktion" ||
    t.data.contains '<' || t.data.contains '>' ||
    isInfixStr "svensk" t || isInfixStr "svenska" t

/-- `_sv_fallbacks(eu)`: placeholder cleanup, then name override table,
then substring EN→SV function map (insertion order, first hit wins),
then code-specific function override. -/
def _sv_fallbacks (eu : Row) : Row :=
  let ecode := getStr eu "eu_e_code"
  let func_en := getStr eu "eu_function_en"
  let eu :=
    if _is_placeholder_sv (getStr eu "eu_official_name_sv") then
      assocSet eu "eu_official_name_sv" (Json.str "")
    else eu
  let eu :=
    if getStr eu "eu_official_name_sv" = "" then
      match lookupTable SWEDISH_NAME_OVERRIDES ecode with
      | some v => assocSet eu "eu_official_name_sv" (Json.str v)
      | none => eu
    else eu
  let eu :=
    if _is_placeholder_sv (getStr eu "eu_function_sv") then
      assocSet eu "eu_function_sv" (Json.str "")
    else eu
  let eu :=
    if getStr eu "eu_function_sv" = "" ∧ func_en ≠ "" then
      match FUNCTION_SV_MAP.findSome? (fun p =>
          if isInfixStr (pyLowerStr p.1) (pyLowerStr func_en) then some p.2 else none) with
      | some v => assocSet eu "eu_function_sv" (Json.str v)
      | none => eu
    else eu
  let eu :=
    if getStr eu "eu_function_sv" = "" then
      match lookupTable FUNCTION_OVERRIDES_BY_ECODE_SV ecode with
      | some v => assocSet eu "eu_function_sv" (Json.str v)
      | none => eu
    else eu
  eu

/-- The post-fetch block `query_eu_additive` runs identically on both of
its branches: Swedish fields from the translation oracle (standing for
`_translate_to_sv`, the external LLM collaborator) or blanks, then
`_sv_fallbacks`, then the legacy English aliases. -/
def enrichRecord (translate : String → String → String × String)
    (translate_sv : Bool) (eu : Row) : Row :=
  let eu :=
    if translate_sv then
      let sv := translate (getStr eu "eu_official_name_en") (getStr eu "eu_function_en")
      assocSet (assocSet eu "eu_official_name_sv" (Json.str sv.1))
        "eu_function_sv" (Json.str sv.2)
    else
      assocSet (assocSet eu "eu_official_name_sv" (Json.str ""))
        "eu_function_sv" (Json.str "")
  let eu := _sv_fallbacks eu
  let eu := assocSet eu "eu_official_name" (Json.str (getStr eu "eu_official_name_en"))
  assocSet eu "eu_function" (Json.str (getStr eu "eu_function_en"))

/-! ## SQLite cache (lines 103–182) and the L1 map -/

/-- One row of the `eu_additives` table (schema of `init_db`); the
`payload_json` TEXT column is modelled by the JSON value it serializes
(`json.dumps` on write, `json.loads` on read). -/
structure DbRow where
  e_code : String
  official_name_en : String
  function_en : String
  policy_item_id : String
  payload : Json
  name_sv : String
  function_sv : String
  updated_at : String

/-- `db_upsert(eu)`'s bound values: the row written for a record. -/
def db_upsert_row (now : String) (eu : Row) : DbRow :=
  { e_code := getStr eu "eu_e_code"
    official_name_en := getStr eu "eu_official_name_en"
    function_en := getStr eu "eu_function_en"
    policy_item_id := getStr eu "eu_policy_item_id"
    payload := assocGetD eu "eu_raw" (Json.obj [])
    name_sv := getStr eu "eu_official_name_sv"
    function_sv := getStr eu "eu_function_sv"
    updated_at := pyStrJ (assocGetD eu "updated_at" (Json.str now)) }

/-- `INSERT ... ON CONFLICT(e_code) DO UPDATE`: overwrite the non-key
columns of every row with that primary key, else append. -/
def dbUpsert (st : List DbRow) (r : DbRow) : List DbRow :=
  if st.any (fun q => q.e_code == r.e_code) then
    st.map (fun q => if q.e_code == r.e_code then r else q)
  else st ++ [r]

/-- `_row_to_dict(row)` (lines 123–139). -/
def _row_to_dict (r : DbRow) : Row :=
  [("eu_e_code", Json.str r.e_code),
   ("eu_official_name", Json.str r.official_name_en),
   ("eu_function", Json.str r.function_en),
   ("eu_official_name_en", Json.str r.official_name_en),
   ("eu_function_en", Json.str r.function_en),
   ("eu_official_name_sv", Json.str r.name_sv),
   ("eu_function_sv", Json.str r.function_sv),
   ("eu_policy_item_id", Json.str r.policy_item_id),
   ("eu_raw", r.payload),
   ("updated_at", Json.str r.updated_at)]

/-- `db_get_by_e_code(e_code_storage)`. -/
def db_get_by_e_code (st : List DbRow) (k : String) : Option Row :=
  (st.find? (fun q => q.e_code == k)).map _row_to_dict

/-- The two cache tiers: `L1_CACHE` and the `eu_additives` table. -/
structure QState where
  l1 : List (String × Row)
  db : List DbRow

/-- Observable cache writes of one call, in program order, plus the
courtesy `time.sleep(0.2)` marker. -/
inductive Eff where
  | dbWrite (r : DbRow)
  | l1Write (k : String) (v : Row)
  | sleep

/-- `hit.get("updated_at")` as the argument `_is_expired` receives. -/
def tsOf (d : Row) : Option String := (assocGet d "updated_at").map pyStrJ

/-- `if hit and not _is_expired(hit.get("updated_at")):` — the guard both
cache tiers apply on the read path. -/
def freshHit (nowSec : Int) : Option Row → Option Row
  | some hit =>
    if !hit.isEmpty && !(_is_expired (tsOf hit) nowSec) then some hit else none
  | none => none

/-! ## `query_eu_additive` (lines 456–538) -/

/-- `query_eu_additive(e_code, name, timeout, translate_sv)` as a state
transformer over the two cache tiers, returning the result, the new
state and the trace of cache effects in program order.  `now`/`nowSec`
stand for the ambient `_utcnow()`/`datetime.utcnow()`; `translate` for
`_translate_to_sv` (external LLM collaborator); `fj`/`fc` for the two
HTTP fetch helpers. -/
def query_eu_additive (fj fc : FetchOracle)
    (translate : String → String → String × String)
    (now : String) (nowSec : Int) (st : QState)
    (e_code name : Option String) (translate_sv : Bool) :
    Option Row × QState × List Eff :=
  if truthyOptStr e_code then
    let e_store := normalize_e_code_storage (e_code.getD "")
    match freshHit nowSec (assocGet st.l1 e_store) with
    | some hit => (some hit, st, [])
    | none =>
      match freshHit nowSec (db_get_by_e_code st.db e_store) with
      | some row =>
        (some row, { st with l1 := assocSet st.l1 e_store row },
          [Eff.l1Write e_store row])
      | none =>
        match _query_api_and_normalize fj fc now (some e_store) none with
        | none => (none, st, [])
        | some eu0 =>
          let eu := enrichRecord translate translate_sv eu0
          let r := db_upsert_row now eu
          (some eu, ⟨assocSet st.l1 e_store eu, dbUpsert st.db r⟩,
            [Eff.dbWrite r, Eff.l1Write e_store eu, Eff.sleep])
  else if truthyOptStr name then
    match _query_api_and_normalize fj fc now none name with
    | none => (none, st, [])
    | some eu0 =>
      let eu := enrichRecord translate translate_sv eu0
      let e_store := getStr eu "eu_e_code"
      if e_store ≠ "" then
        let r := db_upsert_row now eu
        (some eu, ⟨assocSet st.l1 e_store eu, dbUpsert st.db r⟩,
          [Eff.dbWrite r, Eff.l1Write e_store eu, Eff.sleep])
      else (some eu, st, [Eff.sleep])
  else (none, st, [])

/-! ## `extract_e_code_from_text` (`_ECODE_RE`, lines 55 and 83–87) -/

/-- Regex `\w` (ASCII part), deciding `\b` boundaries. -/
def isWordChar (c : Char) : Bool := c.isAlphanum || c == '_'

/-- `\d{3}[a-z]?\b` under `(?i)` with the greedy-then-backtrack optional
letter: the number of characters it consumes, or `none`. -/
def ecodeTailLen : List Char → Option Nat
  | d1 :: d2 :: d3 :: tail =>
    if d1.isDigit && d2.isDigit && d3.isDigit then
      match tail with
      | [] => some 3
      | t :: after =>
        if isAsciiLetter t then
          match after with
          | [] => some 4
          | a :: _ => if isWordChar a then none else some 4
        else if isWordChar t then none else some 3
    else none
  | _ => none

/-- Match attempt for `_ECODE_RE = (?i)\bE\s*[- ]?\s*\d{3}[a-z]?\b` at one
position (`prevIsWord`: whether a word character immediately precedes);
returns the whole matched text, `m.group(0)`. -/
def ecodeMatchAt (prevIsWord : Bool) (l : List Char) : Option (List Char) :=
  match l with
  | [] => none
  | c :: rest =>
    if (c = 'E' ∨ c = 'e') ∧ prevIsWord = false then
      let s3 := sepSkip rest
      let sepLen := rest.length - s3.length
      match ecodeTailLen s3 with
      | some n => some ((c :: rest).take (1 + sepLen + n))
      | none => none
    else none

/-- `re.search` scan for `_ECODE_RE`, leftmost match wins. -/
def ecodeScan : Bool → List Char → Option (List Char)
  | _, [] => none
  | prev, c :: rest =>
    match ecodeMatchAt prev (c :: rest) with
    | some m => some m
    | none => ecodeScan (isWordChar c) rest

/-- `extract_e_code_from_text(text)`. -/
def extract_e_code_from_text (text : String) : String :=
  if text = "" then ""
  else
    match ecodeScan false text.data with
    | some m => normalize_e_code_storage ⟨m⟩
    | none => ""

/-! ## `enrich_items_with_eu` (lines 540–576) -/

/-- `it.get("source") == "PDF"`. -/
def isPdfSource (it : Row) : Bool :=
  match assocGet it "source" with
  | some (Json.str s) => s == "PDF"
  | _ => false

/-- `(v or "")` for optional string-valued item fields. -/
def pyOrEmpty : Option Json → String
  | some (Json.str s) => s
  | _ => ""

/-- One iteration of the `enrich_items_with_eu` loop on a non-PDF item:
resolve a code, run the unified lookup, attach the enrichment fields. -/
def enrichOne (fj fc : FetchOracle)
    (translate : String → String → String × String)
    (now : String) (nowSec : Int) (translate_sv : Bool)
    (st : QState) (it : Row) : Row × QState × List Eff :=
  let name := pyTrimStr (pyOrEmpty (assocGet it "ingredient"))
  let e_code0 := pyTrimStr (pyOrEmpty (assocGet it "e_code"))
  let e_code := if e_code0 = "" then extract_e_code_from_text name else e_code0
  let res := query_eu_additive fj fc translate now nowSec st
    (if e_code ≠ "" then some e_code else none)
    (if e_code ≠ "" then none else some name) translate_sv
  match res with
  | (some eu, st1, tr) =>
    let it := assocSet it "eu_enriched" (Json.bool true)
    let it := assocSet it "eu_source" (Json.str "EU_API")
    let it := assocSet it "eu_e_code" (Json.str (getStr eu "eu_e_code"))
    let it := assocSet it "eu_official_name" (Json.str (getStr eu "eu_official_name"))
    let it := assocSet it "eu_function" (Json.str (getStr eu "eu_function"))
    let it := assocSet it "eu_policy_item_id" (Json.str (getStr eu "eu_policy_item_id"))
    let it := assocSet it "eu_official_name_en" (Json.str (getStr eu "eu_official_name_en"))
    let it := assocSet it "eu_function_en" (Json.str (getStr eu "eu_function_en"))
    let it := assocSet it "eu_official_name_sv" (Json.str (getStr eu "eu_official_name_sv"))
    let it := assocSet it "eu_function_sv" (Json.str (getStr eu "eu_function_sv"))
    let fip := assocGetD eu "eu_fip_url" Json.null
    let it := if pyTruthy fip then assocSet it "eu_fip_url" fip else it
    (it, st1, tr)
  | (none, st1, tr) =>
    let it := assocSet it "eu_enriched" (Json.bool false)
    let it := assocSet it "eu_source" (Json.str "None")
    (it, st1, tr)

/-- `enrich_items_with_eu(items, translate_sv)`: PDF-sourced items are
appended unchanged; the rest go through `enrichOne`, threading the cache
state left to right. -/
def enrich_items_with_eu (fj fc : FetchOracle)
    (translate : String → String → String × String)
    (now : String) (nowSec : Int) (translate_sv : Bool) :
    QState → List Row → List Row × QState × List Eff
  | st, [] => ([], st, [])
  | st, it :: rest =>
    if isPdfSource it then
      let r2 := enrich_items_with_eu fj fc translate now nowSec translate_sv st rest
      (it :: r2.1, r2.2.1, r2.2.2)
    else
      let r1 := enrichOne fj fc translate now nowSec translate_sv st it
      let r2 := enrich_items_with_eu fj fc translate now nowSec translate_sv r1.2.1 rest
      (r1.1 :: r2.1, r2.2.1, r1.2.2 ++ r2.2.2)

/-! ## Concrete probe fixtures used to evaluate the theorems -/

/-- A transport oracle that always raises. -/
def emptyFetch : FetchOracle := fun _ => Except.error ()

/-- A translation oracle that returns blanks (e.g. no LLM credential). -/
def trBlank : String → String → String × String := fun _ _ => ("", "")

/-- An oracle serving one enveloped row that carries no E-code field. -/
def fetchNoCode : FetchOracle := fun _ =>
  Except.ok ⟨200,
    Except.ok (Json.obj [("value",
      Json.arr [Json.obj [("additive_name", Json.str "Foo")]])]),
    Except.error ()⟩

/-- An oracle serving one enveloped row for E211 with a FIP URL. -/
def fetchE211 : FetchOracle := fun _ =>
  Except.ok ⟨200,
    Except.ok (Json.obj [("value", Json.arr [Json.obj
      [("additive_e_code", Json.str "E 211"),
       ("additive_name", Json.str "Sodium benzoate"),
       ("functional_class", Json.str "Preservative"),
       ("fip_url", Json.str "https://ec.europa.eu/fip/E211")]])]),
    Except.error ()⟩

/-- A durable-tier row for E250 whose timestamp is far in the past. -/
def staleE250 : DbRow :=
  ⟨"E250", "Sodium nitrite", "Preservative", "", Json.obj [], "", "",
   "2000-01-01T00:00:00"⟩

end IngredientCheck

namespace IngredientCheck

/-! ## Theorems -/

theorem pyUpperChar_fix (c : Char) : pyUpperChar (pyUpperChar c) = pyUpperChar c := by
  cases h : lowerUpperPairs.find? (fun p => p.1 == c) with
  | none => simp [pyUpperChar, h]
  | some p =>
    have hm : p ∈ lowerUpperPairs := List.mem_of_find?_eq_some h
    simp only [pyUpperChar, h, Option.map_some', Option.getD_some]
    fin_cases hm <;> decide

theorem dropWhile_eq_self_of_none {p : Char → Bool} {l : List Char}
    (h : ∀ c ∈ l, p c = false) : l.dropWhile p = l := by
  cases l with
  | nil => rfl
  | cons a as => simp [List.dropWhile_cons, h a (by simp)]

theorem pyTrim_eq_self {l : List Char} (h : ∀ c ∈ l, pyIsSpace c = false) :
    pyTrim l = l := by
  unfold pyTrim
  rw [dropWhile_eq_self_of_none h]
  rw [dropWhile_eq_self_of_none (fun c hc => h c (List.mem_reverse.mp hc))]
  exact List.reverse_reverse l

theorem mem_pyTrim {c : Char} {l : List Char} (h : c ∈ pyTrim l) : c ∈ l := by
  unfold pyTrim at h
  rw [List.mem_reverse] at h
  have h1 := (List.dropWhile_sublist pyIsSpace).mem h
  rw [List.mem_reverse] at h1
  exact (List.dropWhile_sublist pyIsSpace).mem h1

theorem map_eq_self_of_fix {f : Char → Char} {l : List Char}
    (h : ∀ c ∈ l, f c = c) : l.map f = l := by
  induction l with
  | nil => rfl
  | cons a as ih => simp_all

theorem normL_chars_fixed {l : List Char} {c : Char} (hc : c ∈ normL l) :
    keepCh c = true ∧ pyUpperChar c = c := by
  unfold normL at hc
  by_cases hl : l = []
  · simp [hl] at hc
  · simp only [hl, if_false] at hc
    have base : ∀ d ∈ (pyUpper (pyTrim l)).filter keepCh,
        keepCh d = true ∧ pyUpperChar d = d := by
      intro d hd
      have hk := List.of_mem_filter hd
      have hmem := List.mem_of_mem_filter hd
      rcases List.mem_map.mp hmem with ⟨a, _, rfl⟩
      exact ⟨hk, pyUpperChar_fix a⟩
    by_cases hs : startsWithE ((pyUpper (pyTrim l)).filter keepCh)
    · rw [if_pos hs] at hc
      exact base c hc
    · rw [if_neg hs] at hc
      rcases List.mem_cons.mp hc with rfl | hc
      · exact ⟨by decide, by decide⟩
      · exact base c hc

theorem normL_ne_nil {l : List Char} (h : l ≠ []) : normL l ≠ [] := by
  unfold normL
  simp only [h, if_false]
  by_cases hs : startsWithE ((pyUpper (pyTrim l)).filter keepCh)
  · rw [if_pos hs]
    intro hnil
    rw [hnil] at hs
    exact absurd hs (by decide)
  · rw [if_neg hs]
    simp

theorem normL_starts_E {l : List Char} (h : l ≠ []) :
    ∃ rest, normL l = 'E' :: rest := by
  unfold normL
  simp only [h, if_false]
  by_cases hs : startsWithE ((pyUpper (pyTrim l)).filter keepCh)
  · rw [if_pos hs]
    unfold startsWithE at hs
    cases hmatch : (pyUpper (pyTrim l)).filter keepCh with
    | nil => rw [hmatch] at hs; simp at hs
    | cons x xs =>
      rw [hmatch] at hs
      simp only [List.head?, beq_iff_eq, Option.some.injEq] at hs
      exact ⟨xs, by rw [hs]⟩
  · rw [if_neg hs]
    exact ⟨_, rfl⟩

theorem normL_idem (l : List Char) : normL (normL l) = normL l := by
  by_cases hl : l = []
  · simp [hl, normL]
  · have hfix := fun c hc => normL_chars_fixed (l := l) (c := c) hc
    have hnn := normL_ne_nil hl
    have hsp : ∀ c ∈ normL l, pyIsSpace c = false := by
      intro c hc
      have := (hfix c hc).1
      unfold keepCh at this
      cases hps : pyIsSpace c with
      | false => rfl
      | true => rw [hps] at this; simp at this
    have htrim : pyTrim (normL l) = normL l := pyTrim_eq_self hsp
    have hupper : pyUpper (normL l) = normL l :=
      map_eq_self_of_fix (fun c hc => (hfix c hc).2)
    have hfilter : (normL l).filter keepCh = normL l :=
      List.filter_eq_self.mpr (fun c hc => (hfix c hc).1)
    rcases normL_starts_E hl with ⟨rest, hE⟩
    have hsE : startsWithE (normL l) = true := by
      rw [hE]; rfl
    conv_lhs => rw [normL]
    simp only [hnn, if_false]
    rw [htrim, hupper, hfilter, hsE]
    simp

/-- C8: storage normalization is idempotent — for every non-empty string
`x`, `normalize_e_code_storage (normalize_e_code_storage x) =
normalize_e_code_storage x`. -/
theorem normalize_storage_idempotent (x : String) (_hx : x ≠ "") :
    normalize_e_code_storage (normalize_e_code_storage x) =
      normalize_e_code_storage x := by
  show (⟨normL (normL x.data)⟩ : String) = ⟨normL x.data⟩
  exact congrArg String.mk (normL_idem x.data)

/-- Witness for C8 at the concrete input `"e 250"`. -/
theorem normalize_storage_idempotent_witness :
    "e 250" ≠ "" ∧
      normalize_e_code_storage (normalize_e_code_storage "e 250") =
        normalize_e_code_storage "e 250" :=
  ⟨by decide, normalize_storage_idempotent "e 250" (by decide)⟩

theorem space_hyphen_char {c : Char} (h : pyIsSpace c = true ∨ c = '-') :
    pyUpperChar c = c ∧ keepCh c = false := by
  rcases h with h | rfl
  · simp only [pyIsSpace, Bool.or_eq_true, decide_eq_true_eq] at h
    rcases h with ((((rfl | rfl) | rfl) | rfl) | rfl) | rfl <;>
      exact ⟨by decide, by decide⟩
  · exact ⟨by decide, by decide⟩

theorem string_data_ne_nil {s : String} (hs : s ≠ "") : s.data ≠ [] := by
  intro h
  apply hs
  cases s with
  | mk d => cases h; rfl

/-- C9: on every non-empty input made only of whitespace and hyphens the
storage normalizer returns the non-empty key `"E"`; the empty string is
the only input normalizing to the empty string. -/
theorem normalize_storage_space_hyphen_inputs :
    (∀ s : String, s ≠ "" → (∀ c ∈ s.data, pyIsSpace c = true ∨ c = '-') →
        normalize_e_code_storage s = "E") ∧
    (∀ s : String, normalize_e_code_storage s = "" ↔ s = "") := by
  constructor
  · intro s hs hchars
    have hld : s.data ≠ [] := string_data_ne_nil hs
    have ht : (pyUpper (pyTrim s.data)).filter keepCh = [] := by
      apply List.filter_eq_nil_iff.mpr
      intro d hd
      rcases List.mem_map.mp hd with ⟨a, ha, rfl⟩
      have hc := space_hyphen_char (hchars a (mem_pyTrim ha))
      rw [hc.1]
      simp [hc.2]
    show (⟨normL s.data⟩ : String) = "E"
    have hE : normL s.data = ['E'] := by
      unfold normL
      simp only [hld, if_false, ht]
      rfl
    rw [hE]
  · intro s
    constructor
    · intro h
      by_contra hs
      have hld : s.data ≠ [] := string_data_ne_nil hs
      exact normL_ne_nil hld (congrArg String.data h)
    · intro h
      rw [h]
      rfl

/-- Witness for C9 at the concrete inputs `" "` and `"-"`. -/
theorem normalize_storage_space_hyphen_inputs_witness :
    (" " ≠ "" ∧ normalize_e_code_storage " " = "E") ∧
      ("-" ≠ "" ∧ normalize_e_code_storage "-" = "E") :=
  ⟨⟨by decide, normalize_storage_space_hyphen_inputs.1 " " (by decide) (by decide)⟩,
   ⟨by decide, normalize_storage_space_hyphen_inputs.1 "-" (by decide) (by decide)⟩⟩

theorem isDigit_pyUpperChar (a : Char) : (pyUpperChar a).isDigit = a.isDigit := by
  cases h : lowerUpperPairs.find? (fun p => p.1 == a) with
  | none => simp [pyUpperChar, h]
  | some q =>
    have hm : q ∈ lowerUpperPairs := List.mem_of_find?_eq_some h
    have hp : q.1 = a := by
      have := List.find?_some h
      simpa using this
    simp only [pyUpperChar, h, Option.map_some', Option.getD_some]
    subst hp
    fin_cases hm <;> decide

theorem mem_sepSkip {d : Char} {l : List Char} (hd : d ∈ sepSkip l) : d ∈ l := by
  unfold sepSkip at hd
  cases hA : l.dropWhile pyIsSpace with
  | nil => rw [hA] at hd; simp at hd
  | cons a r2 =>
    rw [hA] at hd
    have hd : d ∈ (if a = '-' then r2.dropWhile pyIsSpace else a :: r2) := hd
    by_cases ha : a = '-'
    · rw [if_pos ha] at hd
      have : d ∈ a :: r2 :=
        List.mem_cons_of_mem _ ((List.dropWhile_sublist pyIsSpace).mem hd)
      rw [← hA] at this
      exact (List.dropWhile_sublist pyIsSpace).mem this
    · rw [if_neg ha] at hd
      rw [← hA] at hd
      exact (List.dropWhile_sublist pyIsSpace).mem hd

theorem digitsCore_none_of_no_digit {l : List Char}
    (h : ∀ c ∈ l, c.isDigit = false) : digitsCore l = none := by
  match l with
  | [] => rfl
  | [_] => rfl
  | [_, _] => rfl
  | d1 :: d2 :: d3 :: tail =>
    have h1 : d1.isDigit = false := h d1 (by simp)
    simp [digitsCore, h1]

theorem eCoreAt_none_of_no_digit {l : List Char}
    (h : ∀ c ∈ l, c.isDigit = false) : eCoreAt l = none := by
  cases l with
  | nil => rfl
  | cons c rest =>
    show (if c = 'E' ∨ c = 'e' then digitsCore (sepSkip rest) else none) = none
    by_cases hc : c = 'E' ∨ c = 'e'
    · rw [if_pos hc]
      apply digitsCore_none_of_no_digit
      intro d hd
      exact h d (List.mem_cons_of_mem _ (mem_sepSkip hd))
    · rw [if_neg hc]

theorem findECore_none_of_no_digit {l : List Char}
    (h : ∀ c ∈ l, c.isDigit = false) : findECore l = none := by
  induction l with
  | nil => rfl
  | cons c rest ih =>
    unfold findECore
    rw [eCoreAt_none_of_no_digit h]
    exact ih (fun d hd => h d (by simp [hd]))

/-- C5 (amended): for every non-empty input containing no digit
characters — hence in particular no `\d{3}` core — the query-variant
function returns a single-element list holding the stripped, upper-cased
input (not the raw input verbatim). -/
theorem query_variants_no_digit_fallback (s : String) (_hs : s ≠ "")
    (hnd : ∀ c ∈ s.data, c.isDigit = false) :
    normalize_e_code_query_variants s = [pyUpperStr (pyTrimStr s)] := by
  have hnd' : ∀ c ∈ pyUpper (pyTrim s.data), c.isDigit = false := by
    intro c hc
    rcases List.mem_map.mp hc with ⟨a, ha, rfl⟩
    rw [isDigit_pyUpperChar]
    exact hnd a (mem_pyTrim ha)
  have hfind : findECore (pyUpper (pyTrim s.data)) = none :=
    findECore_none_of_no_digit hnd'
  have hdig : onlyDigits (pyUpper (pyTrim s.data)) = [] := by
    apply List.filter_eq_nil_iff.mpr
    intro a ha
    simp [hnd' a ha]
  unfold normalize_e_code_query_variants
  simp only [hfind, hdig]
  rfl

/-- Witness for C5's amended theorem at the concrete input `"abc"`. -/
theorem query_variants_no_digit_fallback_witness :
    "abc" ≠ "" ∧ normalize_e_code_query_variants "abc" = ["ABC"] := by
  refine ⟨by decide, ?_⟩
  have h := query_variants_no_digit_fallback "abc" (by decide) (by decide)
  rw [h]
  decide

/-- C3: `_is_expired` reports a record stale exactly when its timestamp
is absent, empty/unparseable, or more than 180 days before the current
time; a parsed timestamp exactly 180 days + 1 second in the past is
stale and one exactly 179 days in the past is fresh. -/
theorem is_expired_characterization :
    (∀ nowSec : Int, _is_expired none nowSec = true) ∧
    (∀ (nowSec : Int) (s : String), parseIsoSeconds s = none →
        _is_expired (some s) nowSec = true) ∧
    (∀ (nowSec t : Int) (s : String), parseIsoSeconds s = some t →
        (_is_expired (some s) nowSec = true ↔ nowSec - t > 180 * 86400)) ∧
    (∀ (nowSec t : Int) (s : String), parseIsoSeconds s = some t →
        nowSec - t = 180 * 86400 + 1 → _is_expired (some s) nowSec = true) ∧
    (∀ (nowSec t : Int) (s : String), parseIsoSeconds s = some t →
        nowSec - t = 179 * 86400 → _is_expired (some s) nowSec = false) := by
  have key : ∀ (nowSec t : Int) (s : String), parseIsoSeconds s = some t →
      (_is_expired (some s) nowSec = true ↔ nowSec - t > 180 * 86400) := by
    intro nowSec t s hparse
    by_cases hs : s = ""
    · subst hs
      simp [parseIsoSeconds] at hparse
    · show (if s = "" then true
          else match parseIsoSeconds s with
            | none => true
            | some t => decide (nowSec - t > (TTL_DAYS : Int) * 86400)) = true ↔ _
      rw [if_neg hs, hparse]
      show decide (nowSec - t > (TTL_DAYS : Int) * 86400) = true ↔ _
      rw [decide_eq_true_iff]
      norm_num [TTL_DAYS]
  refine ⟨fun _ => rfl, ?_, key, ?_, ?_⟩
  · intro nowSec s hparse
    by_cases hs : s = ""
    · subst hs; rfl
    · show (if s = "" then true
          else match parseIsoSeconds s with
            | none => true
            | some t => decide (nowSec - t > (TTL_DAYS : Int) * 86400)) = true
      rw [if_neg hs, hparse]
  · intro nowSec t s hparse hdiff
    rw [key nowSec t s hparse, hdiff]
    omega
  · intro nowSec t s hparse hdiff
    rw [Bool.eq_false_iff]
    intro hcontra
    rw [key nowSec t s hparse, hdiff] at hcontra
    omega

/-- Witness for C3 at the concrete current time 2026-10-12T00:00:00:
`"2026-04-14T23:59:59"` (180 days + 1 s earlier) is stale and
`"2026-04-16T00:00:00"` (179 days earlier) is fresh. -/
theorem is_expired_characterization_witness :
    parseIsoSeconds "2026-04-14T23:59:59" = some 63911807999 ∧
      parseIsoSeconds "2026-04-16T00:00:00" = some 63911894400 ∧
      _is_expired (some "2026-04-14T23:59:59") 63927360000 = true ∧
      _is_expired (some "2026-04-16T00:00:00") 63927360000 = false :=
  ⟨by decide, by decide,
   is_expired_characterization.2.2.2.1 63927360000 63911807999
     "2026-04-14T23:59:59" (by decide) (by decide),
   is_expired_characterization.2.2.2.2 63927360000 63911894400
     "2026-04-16T00:00:00" (by decide) (by decide)⟩

theorem normalize_storage_ne_empty {s : String} (hs : s ≠ "") :
    normalize_e_code_storage s ≠ "" := by
  intro h
  exact normL_ne_nil (string_data_ne_nil hs) (congrArg String.data h)

theorem truthyOptStr_some {s : String} (hs : s ≠ "") :
    truthyOptStr (some s) = true := by
  have hempty : s.isEmpty = false := by
    rw [Bool.eq_false_iff]
    intro h
    exact hs ((String.isEmpty_iff s).mp h)
  simp [truthyOptStr, hempty]

theorem loopVariants_none (fj fc : FetchOracle)
    (hjson : ∀ params, _api_get_rows_json fj params = [])
    (hcsv : ∀ params, _api_get_rows_csv fc params = []) :
    ∀ vs : List String, loopVariants fj fc vs = none := by
  intro vs
  induction vs with
  | nil => rfl
  | cons v rest ih =>
    have hr : fetchRowsFor fj fc [("additive_e_code", v)] = [] := by
      unfold fetchRowsFor
      rw [hjson]
      simp [hcsv]
    unfold loopVariants
    simp only [hr]
    simpa using ih

set_option maxHeartbeats 1000000 in
theorem query_code_fetch_eq (fj fc : FetchOracle)
    (translate : String → String → String × String)
    (now : String) (nowSec : Int) (st : QState) (ec : String) (tsv : Bool)
    (eu0 : Row) (hec : ec ≠ "")
    (hl1 : freshHit nowSec (assocGet st.l1 (normalize_e_code_storage ec)) = none)
    (hdb : freshHit nowSec (db_get_by_e_code st.db (normalize_e_code_storage ec)) = none)
    (happi : _query_api_and_normalize fj fc now
      (some (normalize_e_code_storage ec)) none = some eu0) :
    query_eu_additive fj fc translate now nowSec st (some ec) none tsv =
      (some (enrichRecord translate tsv eu0),
       ⟨assocSet st.l1 (normalize_e_code_storage ec) (enrichRecord translate tsv eu0),
        dbUpsert st.db (db_upsert_row now (enrichRecord translate tsv eu0))⟩,
       [Eff.dbWrite (db_upsert_row now (enrichRecord translate tsv eu0)),
        Eff.l1Write (normalize_e_code_storage ec) (enrichRecord translate tsv eu0),
        Eff.sleep]) := by
  have htr : truthyOptStr (some ec) = true := truthyOptStr_some hec
  unfold query_eu_additive
  rw [htr, if_pos rfl]
  simp only [Option.getD_some]
  rw [hl1, hdb, happi]

set_option maxHeartbeats 2000000 in
theorem query_name_fetch_eq (fj fc : FetchOracle)
    (translate : String → String → String × String)
    (now : String) (nowSec : Int) (st : QState) (nm : String) (tsv : Bool)
    (eu0 : Row) (hnm : nm ≠ "")
    (happi : _query_api_and_normalize fj fc now none (some nm) = some eu0) :
    query_eu_additive fj fc translate now nowSec st none (some nm) tsv =
      (let eu := enrichRecord translate tsv eu0
       let ks := getStr eu "eu_e_code"
       if ks ≠ "" then
         (some eu, ⟨assocSet st.l1 ks eu, dbUpsert st.db (db_upsert_row now eu)⟩,
          [Eff.dbWrite (db_upsert_row now eu), Eff.l1Write ks eu, Eff.sleep])
       else (some eu, st, [Eff.sleep])) := by
  have htr : truthyOptStr (some nm) = true := truthyOptStr_some hnm
  unfold query_eu_additive
  rw [show truthyOptStr none = false from rfl, if_neg (by simp), htr, if_pos rfl, happi]

/-- C1 (amended): a record built from a successful live fetch is written
to the durable tier first and then mirrored into the in-memory L1 with
the identical value before being returned — under the normalized query
code for E-code-driven lookups and under the record's own normalized
code for name-driven lookups — except that a name-driven lookup whose
record carries an empty code is returned without being written to either
tier. -/
theorem query_upsert_durable_then_l1 :
    (∀ (fj fc : FetchOracle) (translate : String → String → String × String)
        (now : String) (nowSec : Int) (st : QState) (ec : String) (tsv : Bool)
        (eu0 : Row), ec ≠ "" →
      freshHit nowSec (assocGet st.l1 (normalize_e_code_storage ec)) = none →
      freshHit nowSec (db_get_by_e_code st.db (normalize_e_code_storage ec)) = none →
      _query_api_and_normalize fj fc now (some (normalize_e_code_storage ec)) none =
        some eu0 →
      query_eu_additive fj fc translate now nowSec st (some ec) none tsv =
        (some (enrichRecord translate tsv eu0),
         ⟨assocSet st.l1 (normalize_e_code_storage ec) (enrichRecord translate tsv eu0),
          dbUpsert st.db (db_upsert_row now (enrichRecord translate tsv eu0))⟩,
         [Eff.dbWrite (db_upsert_row now (enrichRecord translate tsv eu0)),
          Eff.l1Write (normalize_e_code_storage ec) (enrichRecord translate tsv eu0),
          Eff.sleep])) ∧
    (∀ (fj fc : FetchOracle) (translate : String → String → String × String)
        (now : String) (nowSec : Int) (st : QState) (nm : String) (tsv : Bool)
        (eu0 : Row), nm ≠ "" →
      _query_api_and_normalize fj fc now none (some nm) = some eu0 →
      getStr (enrichRecord translate tsv eu0) "eu_e_code" ≠ "" →
      query_eu_additive fj fc translate now nowSec st none (some nm) tsv =
        (some (enrichRecord translate tsv eu0),
         ⟨assocSet st.l1 (getStr (enrichRecord translate tsv eu0) "eu_e_code")
            (enrichRecord translate tsv eu0),
          dbUpsert st.db (db_upsert_row now (enrichRecord translate tsv eu0))⟩,
         [Eff.dbWrite (db_upsert_row now (enrichRecord translate tsv eu0)),
          Eff.l1Write (getStr (enrichRecord translate tsv eu0) "eu_e_code")
            (enrichRecord translate tsv eu0),
          Eff.sleep])) ∧
    (∀ (fj fc : FetchOracle) (translate : String → String → String × String)
        (now : String) (nowSec : Int) (st : QState) (nm : String) (tsv : Bool)
        (eu0 : Row), nm ≠ "" →
      _query_api_and_normalize fj fc now none (some nm) = some eu0 →
      getStr (enrichRecord translate tsv eu0) "eu_e_code" = "" →
      query_eu_additive fj fc translate now nowSec st none (some nm) tsv =
        (some (enrichRecord translate tsv eu0), st, [Eff.sleep])) := by
  refine ⟨?_, ?_, ?_⟩
  · intro fj fc translate now nowSec st ec tsv eu0 hec hl1 hdb happi
    exact query_code_fetch_eq fj fc translate now nowSec st ec tsv eu0 hec hl1 hdb happi
  · intro fj fc translate now nowSec st nm tsv eu0 hnm happi hks
    rw [query_name_fetch_eq fj fc translate now nowSec st nm tsv eu0 hnm happi]
    exact if_pos hks
  · intro fj fc translate now nowSec st nm tsv eu0 hnm happi hks
    rw [query_name_fetch_eq fj fc translate now nowSec st nm tsv eu0 hnm happi]
    exact if_neg (fun h => h hks)

/-- Witness for C1's amended theorem: an E-code-driven fetch and a
name-driven fetch (code-bearing row) each produce the three-effect trace
`[durable write, L1 write, sleep]`, and a name-driven fetch whose row
yields no code produces only the sleep marker. -/
theorem query_upsert_durable_then_l1_witness :
    (query_eu_additive fetchE211 fetchE211 trBlank "2026-10-12T00:00:00" 63927360000
        ⟨[], []⟩ (some "E211") none true).2.2.length = 3 ∧
    (query_eu_additive fetchE211 fetchE211 trBlank "2026-10-12T00:00:00" 63927360000
        ⟨[], []⟩ none (some "Sodium benzoate") true).2.2.length = 3 ∧
    (query_eu_additive fetchNoCode fetchNoCode trBlank "2026-10-12T00:00:00" 63927360000
        ⟨[], []⟩ none (some "Bar") true).2.2 = [Eff.sleep] := by
  refine ⟨?_, ?_, ?_⟩
  · rw [query_upsert_durable_then_l1.1 fetchE211 fetchE211 trBlank "2026-10-12T00:00:00"
      63927360000 ⟨[], []⟩ "E211" true _ (by decide) rfl rfl rfl]
    rfl
  · rw [query_upsert_durable_then_l1.2.1 fetchE211 fetchE211 trBlank "2026-10-12T00:00:00"
      63927360000 ⟨[], []⟩ "Sodium benzoate" true _ (by decide) rfl (by decide)]
    rfl
  · rw [query_upsert_durable_then_l1.2.2 fetchNoCode fetchNoCode trBlank "2026-10-12T00:00:00"
      63927360000 ⟨[], []⟩ "Bar" true _ (by decide) rfl (by decide)]

/-- C1 counterexample: a name-driven lookup whose fetched row carries no
E-code returns a record, yet neither tier is written and the effect
trace holds only the courtesy sleep — contradicting "the record is
upserted into the durable tier ... and mirrored into L1 ... before the
record is returned" for every successful fetch. -/
theorem query_upsert_claim_counterexample :
    (query_eu_additive fetchNoCode fetchNoCode trBlank "2026-10-12T00:00:00" 63927360000
        ⟨[], []⟩ none (some "Foo") true).1.isSome = true ∧
    (query_eu_additive fetchNoCode fetchNoCode trBlank "2026-10-12T00:00:00" 63927360000
        ⟨[], []⟩ none (some "Foo") true).2.1.l1 = [] ∧
    (query_eu_additive fetchNoCode fetchNoCode trBlank "2026-10-12T00:00:00" 63927360000
        ⟨[], []⟩ none (some "Foo") true).2.1.db = [] ∧
    (query_eu_additive fetchNoCode fetchNoCode trBlank "2026-10-12T00:00:00" 63927360000
        ⟨[], []⟩ none (some "Foo") true).2.2 = [Eff.sleep] :=
  ⟨rfl, rfl, rfl, rfl⟩

/-- C2: when the cached record for the queried code is stale in both
tiers and the live refetch yields no rows for any parameters, the lookup
reports "not found" (`none`) — it does not fall back to the stale cached
row — and leaves the cache state untouched. -/
theorem query_stale_then_empty_refetch_not_found
    (fj fc : FetchOracle) (translate : String → String → String × String)
    (now : String) (nowSec : Int) (st : QState) (ec : String) (tsv : Bool)
    (row : Row) (hec : ec ≠ "")
    (hl1 : ∀ hit, assocGet st.l1 (normalize_e_code_storage ec) = some hit →
      _is_expired (tsOf hit) nowSec = true)
    (hdbrow : db_get_by_e_code st.db (normalize_e_code_storage ec) = some row)
    (hstale : _is_expired (tsOf row) nowSec = true)
    (hjson : ∀ params, _api_get_rows_json fj params = [])
    (hcsv : ∀ params, _api_get_rows_csv fc params = []) :
    query_eu_additive fj fc translate now nowSec st (some ec) none tsv =
      (none, st, []) := by
  have htr : truthyOptStr (some ec) = true := truthyOptStr_some hec
  have hfl1 : freshHit nowSec (assocGet st.l1 (normalize_e_code_storage ec)) = none := by
    cases h : assocGet st.l1 (normalize_e_code_storage ec) with
    | none => rfl
    | some hit =>
      have hx := hl1 hit h
      simp [freshHit, hx]
  have hfdb : freshHit nowSec (db_get_by_e_code st.db (normalize_e_code_storage ec)) =
      none := by
    rw [hdbrow]
    simp [freshHit, hstale]
  have happi : _query_api_and_normalize fj fc now
      (some (normalize_e_code_storage ec)) none = none := by
    have hns : normalize_e_code_storage ec ≠ "" := normalize_storage_ne_empty hec
    unfold _query_api_and_normalize
    rw [truthyOptStr_some hns, if_pos rfl, Option.getD_some,
      loopVariants_none fj fc hjson hcsv _]
    rfl
  unfold query_eu_additive
  rw [htr, if_pos rfl]
  simp only [Option.getD_some]
  rw [hfl1, hfdb, happi]

/-- Witness for C2: a stale E250 row in the durable tier plus an
always-raising transport oracle yields "not found" with no state
change. -/
theorem query_stale_then_empty_refetch_not_found_witness :
    query_eu_additive emptyFetch emptyFetch trBlank "2026-10-12T00:00:00" 63927360000
        ⟨[], [staleE250]⟩ (some "E250") none true =
      (none, ⟨[], [staleE250]⟩, []) :=
  query_stale_then_empty_refetch_not_found emptyFetch emptyFetch trBlank
    "2026-10-12T00:00:00" 63927360000 ⟨[], [staleE250]⟩ "E250" true
    (_row_to_dict staleE250) (by decide)
    (fun hit h => by simp [assocGet] at h)
    rfl (by decide) (fun _ => rfl) (fun _ => rfl)

theorem assocGet_cons {α : Type} (q : String × α) (l : List (String × α)) (k : String) :
    assocGet (q :: l) k = if (q.1 == k) = true then some q.2 else assocGet l k := by
  by_cases h : (q.1 == k) = true
  · simp [assocGet, List.find?_cons_of_pos _ h, h]
  · simp [assocGet, List.find?_cons_of_neg _ h, h]

theorem assocGet_map_replace_self {α : Type} {d : List (String × α)} {k : String} {v : α}
    (hany : d.any (fun q => q.1 == k) = true) :
    assocGet (d.map (fun p => if p.1 == k then (k, v) else p)) k = some v := by
  induction d with
  | nil => simp at hany
  | cons p ds ih =>
    by_cases hp : (p.1 == k) = true
    · simp only [List.map_cons, hp, if_true, assocGet_cons]
      simp
    · simp only [List.map_cons, hp, if_false, assocGet_cons]
      have hds : ds.any (fun q => q.1 == k) = true := by
        simpa [List.any_cons, hp] using hany
      simpa [hp] using ih hds

theorem assocGet_append_last_self {α : Type} {d : List (String × α)} {k : String} {v : α}
    (hany : d.any (fun q => q.1 == k) = false) :
    assocGet (d ++ [(k, v)]) k = some v := by
  have hnone : d.find? (fun q => q.1 == k) = none := by
    rw [List.find?_eq_none]
    exact List.any_eq_false.mp hany
  unfold assocGet
  rw [List.find?_append, hnone]
  simp

theorem assocGet_assocSet_self {α : Type} (d : List (String × α)) (k : String) (v : α) :
    assocGet (assocSet d k v) k = some v := by
  unfold assocSet
  split
  · exact assocGet_map_replace_self (by assumption)
  · exact assocGet_append_last_self (Bool.eq_false_iff.mpr (by assumption))

theorem assocGet_map_replace_ne {α : Type} {kk k : String} (h : kk ≠ k)
    (d : List (String × α)) (v : α) :
    assocGet (d.map (fun p => if p.1 == k then (k, v) else p)) kk = assocGet d kk := by
  induction d with
  | nil => rfl
  | cons p ds ih =>
    by_cases hp : (p.1 == k) = true
    · have hpk : p.1 = k := by simpa using hp
      have hpkk : (p.1 == kk) = false := by
        rw [beq_eq_false_iff_ne, hpk]
        exact fun hc => h hc.symm
      have hkkk : (k == kk) = false := by
        rw [beq_eq_false_iff_ne]
        exact fun hc => h hc.symm
      unfold assocGet
      rw [List.map_cons, if_pos hp,
        List.find?_cons_of_neg _ (by simp [hkkk]),
        List.find?_cons_of_neg _ (by simp [hpkk])]
      exact ih
    · by_cases hq : (p.1 == kk) = true
      · unfold assocGet
        rw [List.map_cons, if_neg hp,
          List.find?_cons_of_pos _ (by exact hq), List.find?_cons_of_pos _ (by exact hq)]
      · unfold assocGet
        rw [List.map_cons, if_neg hp,
          List.find?_cons_of_neg _ (by exact hq), List.find?_cons_of_neg _ (by exact hq)]
        exact ih

theorem assocGet_append_last_ne {α : Type} {kk k : String} (h : kk ≠ k)
    (d : List (String × α)) (v : α) :
    assocGet (d ++ [(k, v)]) kk = assocGet d kk := by
  unfold assocGet
  rw [List.find?_append]
  have hlast : ([(k, v)] : List (String × α)).find? (fun q => q.1 == kk) = none := by
    rw [List.find?_eq_none]
    intro x hx
    have hx' : x = (k, v) := by simpa using hx
    subst hx'
    show ¬((k == kk) = true)
    rw [beq_eq_false_iff_ne.mpr (fun hc => h hc.symm)]
    simp
  rw [hlast]
  cases d.find? (fun q => q.1 == kk) <;> rfl

theorem assocGet_assocSet_ne {α : Type} {kk k : String} (h : kk ≠ k)
    (d : List (String × α)) (v : α) :
    assocGet (assocSet d k v) kk = assocGet d kk := by
  unfold assocSet
  split
  · exact assocGet_map_replace_ne h d v
  · exact assocGet_append_last_ne h d v

theorem assocGet_ite_set {α : Type} {c : Prop} [Decidable c] {kk k : String}
    (h : kk ≠ k) (d : List (String × α)) (v : α) :
    assocGet (if c then assocSet d k v else d) kk = assocGet d kk := by
  split
  · exact assocGet_assocSet_ne h d v
  · rfl

theorem assocGet_ite_opt_set {α : Type} {c : Prop} [Decidable c] {kk k : String}
    (h : kk ≠ k) (d : List (String × α)) (t : Option String) (f : String → α) :
    assocGet (if c then (match t with
        | some v => assocSet d k (f v)
        | none => d) else d) kk = assocGet d kk := by
  split
  · cases t with
    | none => rfl
    | some v => exact assocGet_assocSet_ne h d (f v)
  · rfl

theorem sv_fallbacks_preserves {kk : String}
    (h1 : kk ≠ "eu_official_name_sv") (h2 : kk ≠ "eu_function_sv") (d : Row) :
    assocGet (_sv_fallbacks d) kk = assocGet d kk := by
  simp only [_sv_fallbacks]
  rw [assocGet_ite_opt_set h2, assocGet_ite_opt_set h2, assocGet_ite_set h2,
    assocGet_ite_opt_set h1, assocGet_ite_set h1]

theorem enrichRecord_preserves_fip (translate : String → String → String × String)
    (tsv : Bool) (eu0 : Row) :
    assocGet (enrichRecord translate tsv eu0) "eu_fip_url" =
      assocGet eu0 "eu_fip_url" := by
  simp only [enrichRecord]
  rw [assocGet_assocSet_ne (by decide), assocGet_assocSet_ne (by decide),
    sv_fallbacks_preserves (by decide) (by decide)]
  split
  · rw [assocGet_assocSet_ne (by decide), assocGet_assocSet_ne (by decide)]
  · rw [assocGet_assocSet_ne (by decide), assocGet_assocSet_ne (by decide)]

theorem dbFind_map_replace_self {st : List DbRow} {r : DbRow}
    (hany : st.any (fun q => q.e_code == r.e_code) = true) :
    (st.map (fun q => if q.e_code == r.e_code then r else q)).find?
      (fun q => q.e_code == r.e_code) = some r := by
  induction st with
  | nil => simp at hany
  | cons p ds ih =>
    by_cases hp : (p.e_code == r.e_code) = true
    · simp only [List.map_cons, hp, if_true]
      rw [List.find?_cons_of_pos _ (by simp)]
    · simp only [List.map_cons, hp, if_false]
      rw [List.find?_cons_of_neg _ (by simp [hp])]
      have hds : ds.any (fun q => q.e_code == r.e_code) = true := by
        simpa [List.any_cons, hp] using hany
      exact ih hds

theorem dbFind_append_self {st : List DbRow} {r : DbRow}
    (hany : st.any (fun q => q.e_code == r.e_code) = false) :
    (st ++ [r]).find? (fun q => q.e_code == r.e_code) = some r := by
  have hnone : st.find? (fun q => q.e_code == r.e_code) = none := by
    rw [List.find?_eq_none]
    exact List.any_eq_false.mp hany
  rw [List.find?_append, hnone]
  simp

theorem db_get_upsert_self (st : List DbRow) (r : DbRow) :
    db_get_by_e_code (dbUpsert st r) r.e_code = some (_row_to_dict r) := by
  unfold db_get_by_e_code dbUpsert
  split
  · rw [dbFind_map_replace_self (by assumption)]
    rfl
  · rw [dbFind_append_self (Bool.eq_false_iff.mpr (by assumption))]
    rfl

/-- C10: a record built from a live fetch carries an `eu_fip_url` field
which the L1 mirror keeps but the durable schema has no column for:
after a code-driven lookup whose fetched row supplied a URL, the L1
entry for the code contains `eu_fip_url`, while reading the same record
back from the durable tier yields a dict with no `eu_fip_url` key — the
two tiers return different field sets for the same record. -/
theorem fip_url_tier_divergence (fj fc : FetchOracle)
    (translate : String → String → String × String)
    (now : String) (nowSec : Int) (st : QState) (ec : String) (tsv : Bool)
    (eu0 : Row) (u : String) (hec : ec ≠ "")
    (hl1 : freshHit nowSec (assocGet st.l1 (normalize_e_code_storage ec)) = none)
    (hdb : freshHit nowSec (db_get_by_e_code st.db (normalize_e_code_storage ec)) = none)
    (happi : _query_api_and_normalize fj fc now
      (some (normalize_e_code_storage ec)) none = some eu0)
    (hfip : assocGet eu0 "eu_fip_url" = some (Json.str u)) :
    assocGet (query_eu_additive fj fc translate now nowSec st
        (some ec) none tsv).2.1.l1 (normalize_e_code_storage ec) =
      some (enrichRecord translate tsv eu0) ∧
    assocGet (enrichRecord translate tsv eu0) "eu_fip_url" = some (Json.str u) ∧
    db_get_by_e_code (query_eu_additive fj fc translate now nowSec st
        (some ec) none tsv).2.1.db
        (db_upsert_row now (enrichRecord translate tsv eu0)).e_code =
      some (_row_to_dict (db_upsert_row now (enrichRecord translate tsv eu0))) ∧
    assocGet (_row_to_dict (db_upsert_row now (enrichRecord translate tsv eu0)))
      "eu_fip_url" = none := by
  have hq := query_code_fetch_eq fj fc translate now nowSec st ec tsv eu0 hec hl1 hdb happi
  refine ⟨?_, ?_, ?_, ?_⟩
  · rw [hq]
    exact assocGet_assocSet_self st.l1 _ _
  · rw [enrichRecord_preserves_fip]
    exact hfip
  · rw [hq]
    exact db_get_upsert_self st.db _
  · rfl

/-- Witness for C10 with the concrete E211 oracle: the L1 value carries
the URL, the durable read-back shows no `eu_fip_url` key. -/
theorem fip_url_tier_divergence_witness :
    (assocGet (query_eu_additive fetchE211 fetchE211 trBlank "2026-10-12T00:00:00"
          63927360000 ⟨[], []⟩ (some "E211") none true).2.1.l1
        (normalize_e_code_storage "E211")).map (fun v => assocGet v "eu_fip_url") =
      some (some (Json.str "https://ec.europa.eu/fip/E211")) ∧
    (db_get_by_e_code (query_eu_additive fetchE211 fetchE211 trBlank "2026-10-12T00:00:00"
          63927360000 ⟨[], []⟩ (some "E211") none true).2.1.db "E211").map
        (fun r => assocGet r "eu_fip_url") =
      some none := by
  have h := fip_url_tier_divergence fetchE211 fetchE211 trBlank "2026-10-12T00:00:00"
    63927360000 ⟨[], []⟩ "E211" true _ "https://ec.europa.eu/fip/E211"
    (by decide) rfl rfl rfl rfl
  refine ⟨?_, ?_⟩
  · rw [h.1, Option.map_some', h.2.1]
  · rfl

/-- C7: enrichment passes PDF-sourced items through unchanged —
for every item list, every position holding an item whose `source` field
equals `"PDF"` reappears at the same position of the output,
field-for-field identical, whatever the oracles and cache state; the
output also has the input's length. -/
theorem enrich_pdf_items_unchanged (fj fc : FetchOracle)
    (translate : String → String → String × String)
    (now : String) (nowSec : Int) (tsv : Bool) :
    ∀ (items : List Row) (st : QState),
      (enrich_items_with_eu fj fc translate now nowSec tsv st items).1.length =
        items.length ∧
      (∀ (i : Nat) (hi : i < items.length),
        assocGet (items.get ⟨i, hi⟩) "source" = some (Json.str "PDF") →
        (enrich_items_with_eu fj fc translate now nowSec tsv st items).1[i]? =
          some (items.get ⟨i, hi⟩)) := by
  intro items
  induction items with
  | nil =>
    intro st
    refine ⟨rfl, ?_⟩
    intro i hi
    exact absurd hi (by simp)
  | cons it rest ih =>
    intro st
    by_cases hp : isPdfSource it = true
    · have hout : (enrich_items_with_eu fj fc translate now nowSec tsv st (it :: rest)).1 =
          it :: (enrich_items_with_eu fj fc translate now nowSec tsv st rest).1 := by
        simp only [enrich_items_with_eu]
        rw [if_pos hp]
      constructor
      · rw [hout]
        simp [(ih st).1]
      · intro i hi hsrc
        rw [hout]
        cases i with
        | zero => simp
        | succ n =>
          have hn : n < rest.length := by simpa using hi
          have hsrc' : assocGet (rest.get ⟨n, hn⟩) "source" = some (Json.str "PDF") := by
            simpa using hsrc
          simpa using (ih st).2 n hn hsrc'
    · have hout : (enrich_items_with_eu fj fc translate now nowSec tsv st (it :: rest)).1 =
          (enrichOne fj fc translate now nowSec tsv st it).1 ::
            (enrich_items_with_eu fj fc translate now nowSec tsv
              (enrichOne fj fc translate now nowSec tsv st it).2.1 rest).1 := by
        simp only [enrich_items_with_eu]
        rw [if_neg hp]
      constructor
      · rw [hout]
        simp [(ih (enrichOne fj fc translate now nowSec tsv st it).2.1).1]
      · intro i hi hsrc
        rw [hout]
        cases i with
        | zero =>
          simp only [List.get] at hsrc
          exact absurd (by simp [isPdfSource, hsrc]) hp
        | succ n =>
          have hn : n < rest.length := by simpa using hi
          have hsrc' : assocGet (rest.get ⟨n, hn⟩) "source" = some (Json.str "PDF") := by
            simpa using hsrc
          simpa using
            (ih (enrichOne fj fc translate now nowSec tsv st it).2.1).2 n hn hsrc'

/-- Witness for C7 at a concrete PDF item with failing oracles. -/
theorem enrich_pdf_items_unchanged_witness :
    (enrich_items_with_eu emptyFetch emptyFetch trBlank "2026-10-12T00:00:00" 63927360000
        true ⟨[], []⟩ [[("source", Json.str "PDF"), ("ingredient", Json.str "salt")]]).1[0]? =
      some [("source", Json.str "PDF"), ("ingredient", Json.str "salt")] := by
  have h := (enrich_pdf_items_unchanged emptyFetch emptyFetch trBlank "2026-10-12T00:00:00"
      63927360000 true [[("source", Json.str "PDF"), ("ingredient", Json.str "salt")]]
      ⟨[], []⟩).2 0 (by decide) rfl
  simpa using h

/-- C4 (amended): the selector agrees everywhere with the spec's
priority order once priorities (1) and (2) additionally require the
row's normalized code to be non-empty; and on the spec's concrete
example it picks the `substanceFAD` row. -/
theorem prefer_substance_match_priority :
    (∀ (rows : List Row) (wanted : String),
        _prefer_substance_match rows wanted = selectBestRowSpec rows wanted) ∧
      _prefer_substance_match
          [[("code", Json.str "E250"), ("type", Json.str "other")],
           [("code", Json.str "E250"), ("type", Json.str "substanceFAD")]] "E250" =
        some [("code", Json.str "E250"), ("type", Json.str "substanceFAD")] := by
  constructor
  · intro rows wanted
    simp only [_prefer_substance_match, selectBestRowSpec, List.find?_map]
    cases h1 : rows.find? (fun r =>
        rowECodeNorm r != "" && rowECodeNorm r == wanted &&
          pyLowerStr (rowTypeStr r) == "substancefad") with
    | some r => simp [Function.comp_def, h1]
    | none =>
      cases h2 : rows.find? (fun r => rowECodeNorm r != "" && rowECodeNorm r == wanted) with
      | some r => simp [Function.comp_def, h1, h2]
      | none =>
        cases h3 : rows.find? (fun r => pyLowerStr (rowTypeStr r) == "substancefad") with
        | some r => simp [Function.comp_def, h1, h2, h3]
        | none => simp [Function.comp_def, h1, h2, h3]
  · rfl

/-- C4 counterexample: with wanted code `""` and rows
`[{code:"E250", type:"other"}, {}]`, the claim's priority (2) — "a row
whose normalized code equals the wanted code regardless of type" — picks
the empty row (its normalized code is `""`), but the code's
`if e_norm and ...` guards skip rows with empty normalized codes and
fall through to priority (4), the first row. -/
theorem prefer_substance_match_counterexample :
    _prefer_substance_match
        [[("code", Json.str "E250"), ("type", Json.str "other")], []] "" =
      some [("code", Json.str "E250"), ("type", Json.str "other")] ∧
    selectBestRowClaim
        [[("code", Json.str "E250"), ("type", Json.str "other")], []] "" =
      some ([] : Row) ∧
    _prefer_substance_match
        [[("code", Json.str "E250"), ("type", Json.str "other")], []] "" ≠
      selectBestRowClaim
        [[("code", Json.str "E250"), ("type", Json.str "other")], []] "" := by
  refine ⟨rfl, rfl, ?_⟩
  intro h
  rw [show _prefer_substance_match
        [[("code", Json.str "E250"), ("type", Json.str "other")], []] "" =
      some [("code", Json.str "E250"), ("type", Json.str "other")] from rfl,
    show selectBestRowClaim
        [[("code", Json.str "E250"), ("type", Json.str "other")], []] "" =
      some ([] : Row) from rfl] at h
  simp at h

/-- C6: for every parameter mapping, the registry fetchers (JSON and
CSV) return the empty row sequence on transport failure, non-200 HTTP
status, and body parse failure; both are total Lean functions into
`List Row`, so no exception can reach the caller. -/
theorem api_get_rows_error_containment (fetch : FetchOracle)
    (params : List (String × String)) :
    (fetch params = .error () →
      _api_get_rows_json fetch params = [] ∧ _api_get_rows_csv fetch params = []) ∧
    (∀ r, fetch params = .ok r → r.statusCode ≠ 200 →
      _api_get_rows_json fetch params = [] ∧ _api_get_rows_csv fetch params = []) ∧
    (∀ r, fetch params = .ok r → r.jsonData = .error () →
      _api_get_rows_json fetch params = []) ∧
    (∀ r, fetch params = .ok r → r.csvRows = .error () →
      _api_get_rows_csv fetch params = []) := by
  refine ⟨?_, ?_, ?_, ?_⟩
  · intro h
    constructor <;> simp [_api_get_rows_json, _api_get_rows_csv, h]
  · intro r h hstatus
    constructor <;> simp [_api_get_rows_json, _api_get_rows_csv, h, hstatus]
  · intro r h hjson
    by_cases hstatus : r.statusCode = 200 <;>
      simp [_api_get_rows_json, h, hjson, hstatus]
  · intro r h hcsv
    by_cases hstatus : r.statusCode = 200 <;>
      simp [_api_get_rows_csv, h, hcsv, hstatus]

/-- Witness for C6: a raising transport oracle yields `[]` from both
fetchers. -/
theorem api_get_rows_error_containment_witness :
    _api_get_rows_json (fun _ => Except.error ()) [] = [] ∧
      _api_get_rows_csv (fun _ => Except.error ()) [] = [] :=
  (api_get_rows_error_containment (fun _ => Except.error ()) []).1 rfl

/-- C5 counterexample: the input `"25"` is non-empty and the E-code
pattern finds no three-digit core in it, yet the function returns the
three digit-stripped variants, not the raw input as a single-element
list. -/
theorem query_variants_claim_counterexample :
    ("25" : String) ≠ "" ∧
      findECore (pyUpper (pyTrim ("25" : String).data)) = none ∧
      normalize_e_code_query_variants "25" = ["E 25", "E25", "E-25"] ∧
      normalize_e_code_query_variants "25" ≠ ["25"] := by
  refine ⟨by decide, by decide, by decide, by decide⟩

end IngredientCheck
